import Mathlib

/-!
# NBD block device driver (driver/osx/NBD/block_dev.c)

A shallow embedding of the functions of `block_dev.c`: `dev_open`,
`dev_close`, `dev_size`, `dev_strategy`, `log_2`, `connect_call_complete` and
`dev_ioctl_bdev`.

Modelling conventions.

* Pointers (`proc_t`, `socket_t`) are natural numbers, `0` being `NULL`.
* `devices[]` is a list of `device` records; indexing it out of range is
  undefined in C and is `none` here.
* The per-device spin lock only brackets the check-and-set of `dev_open`;
  the embedding is sequential, so the lock does not appear.
* `printf` logging has no effect on the state and is left out.
* The kernel socket calls (`sock_socket`, `sock_connect`, `sock_close`,
  `sock_isconnected`) are outside the file: their results are supplied by a
  `kpi_socket` record and every call made is recorded in a trace.
* The kernel calls the entry points one at a time on a minor number; a
  history of such calls is a list of `event`s, executed by `run`.
-/

namespace NBD

/-! ## Constants of the platform headers -/

/-- Darwin `sys/errno.h`: input/output error. -/
def EIO : Int := 5
/-- Darwin `sys/errno.h`: device not configured. -/
def ENXIO : Int := 6
/-- Darwin `sys/errno.h`: resource busy. -/
def EBUSY : Int := 16
/-- Darwin `sys/errno.h`: invalid argument. -/
def EINVAL : Int := 22
/-- Darwin `sys/errno.h`: inappropriate ioctl for device. -/
def ENOTTY : Int := 25
/-- Darwin `sys/errno.h`: operation now in progress. -/
def EINPROGRESS : Int := 36

/-- The command codes switched on by `dev_ioctl_bdev`. Their numeric values come
from `sys/disk.h` and `nbd_ioctl.h`, which are not part of the sources, so they
are a parameter; a C `switch` only compiles when its case labels are pairwise
distinct, which is the field `distinct_cases`. -/
structure ioctl_codes where
  DKIOCGETBLOCKSIZE : Nat
  DKIOCSETBLOCKSIZE : Nat
  DKIOCGETBLOCKCOUNT : Nat
  IOCTL_CONNECT_DEVICE : Nat
  IOCTL_CONNECTIVITY_CHECK : Nat
  distinct_cases : [DKIOCGETBLOCKSIZE, DKIOCSETBLOCKSIZE, DKIOCGETBLOCKCOUNT,
    IOCTL_CONNECT_DEVICE, IOCTL_CONNECTIVITY_CHECK].Nodup

/-! ## Data model -/

/-- One slot of `devices[]` (the record of `device.h`, without its lock).
`opened_by` and `socket` are pointers (`0` is `NULL`), `client_block_size` is a
`uint32_t`, `size` an unsigned 64-bit byte count, `connect_completed` an `int`
used as a flag. -/
structure device where
  opened_by : Nat
  client_block_size : Nat
  size : Nat
  socket : Nat
  connect_completed : Int
deriving DecidableEq, Repr

/-! ## Open and close -/

/-- Source `dev_open`: under the device lock, refuse with `EBUSY` when somebody
holds the device, otherwise record `proc` as the opener and return `0`. -/
def dev_open (devices : List device) (minor_number : Nat) (proc : Nat) :
    Option (Int × List device) :=
  match devices[minor_number]? with
  | none => none
  | some dev =>
    if dev.opened_by ≠ 0 then
      some (EBUSY, devices)
    else
      some (0, devices.set minor_number { dev with opened_by := proc })

/-- Source `dev_close`. The local `int ret;` is declared without an initialiser
and is assigned only on the `EINVAL` path, so on the closing path the function
returns whatever the local held: that indeterminate value is the argument
`ret`. `BLOCK_SIZE` is the constant of `common.h`, stored into the `uint32_t`
field `client_block_size`. -/
def dev_close (BLOCK_SIZE : Nat) (devices : List device) (minor_number : Nat) (proc : Nat)
    (ret : Int) : Option (Int × List device) :=
  match devices[minor_number]? with
  | none => none
  | some dev =>
    if dev.opened_by ≠ proc then
      some (EINVAL, devices)
    else
      some (ret, devices.set minor_number
        { dev with opened_by := 0, client_block_size := BLOCK_SIZE % 2 ^ 32 })

/-- Source `dev_size`: the constant block size. -/
def dev_size (BLOCK_SIZE : Int) : Int := BLOCK_SIZE

/-! ## Block count helper -/

/-- The `while (x > 0)` loop of source `log_2`, with its counter `ret`. -/
def log_2_loop (x : Nat) (ret : Int) : Int :=
  if 0 < x then log_2_loop (x >>> 1) (ret + 1) else ret
termination_by x
decreasing_by
  simp only [Nat.shiftRight_eq_div_pow]
  omega

/-- Source `log_2` on a `uint64_t` argument: counts how often `x` can be shifted
right by one until it is zero. -/
def log_2 (x : Nat) : Int := log_2_loop (x % 2 ^ 64) 0

/-! ## Block I/O -/

/-- The fields of a kernel `buf_t` that `dev_strategy` reads or writes:
`buf_device` (as a minor number), `buf_count`, `buf_blkno`, `buf_flags`, the
error set by `buf_seterror`, and the number of `buf_biodone` calls made on the
buffer. -/
structure buf where
  b_dev : Nat
  b_bcount : Int
  b_blkno : Int
  b_flags : Nat
  b_error : Int
  biodone_calls : Nat
deriving DecidableEq, Repr

/-- Source `dev_strategy`: the request is decoded for the log line only; `ret`
is the constant `EIO`, stored with `buf_seterror`, and `buf_biodone` is called
once. The device slot is addressed but never read or written. -/
def dev_strategy (devices : List device) (bp : buf) : List device × buf :=
  let ret := EIO
  (devices, { bp with b_error := ret, biodone_calls := bp.biodone_calls + 1 })

/-! ## Connection completion -/

/-- Source `connect_call_complete`, the upcall registered with `sock_socket`:
`cookie` is the minor number; the flag is raised only when the slot still holds
the socket the upcall is for (`waitf` is unused). -/
def connect_call_complete (devices : List device) (socket : Nat) (cookie : Nat) :
    Option (List device) :=
  match devices[cookie]? with
  | none => none
  | some dev =>
    if dev.socket = socket then
      some (devices.set cookie { dev with connect_completed := 1 })
    else
      some devices

/-! ## Control commands -/

/-- What the kernel socket interface answers during one `dev_ioctl_bdev` call.
`sock_socket` returns `sock_socket_result` and, as `sys/kpi_socket.h` documents
for `new_so`, stores the new socket `sock_socket_new` through its last argument
upon success only. `sock_connect so server` and `sock_isconnected so` are the
return values of those calls. -/
structure kpi_socket where
  sock_socket_result : Int
  sock_socket_new : Nat
  sock_connect : Nat → Nat → Int
  sock_isconnected : Nat → Int

/-- A call into the kernel socket interface, as recorded in the trace. -/
inductive kpi_call where
  | sock_socket (cookie : Nat)
  | sock_connect (so : Nat) (server : Nat)
  | sock_close (so : Nat)
  | sock_isconnected (so : Nat)
deriving DecidableEq, Repr

/-- A store through the `data` pointer of `dev_ioctl_bdev`, by the C type of the
pointer it is made through: `uint32_t`, `long long` or `int`. -/
inductive data_store where
  | u32 (v : Nat)
  | s64 (v : Int)
  | s32 (v : Int)
deriving DecidableEq, Repr

/-- Outcome of `dev_ioctl_bdev`: the returned status, the device table, the
store made through `data` (if any) and the kernel socket calls made, in order. -/
structure ioctl_result where
  ret : Int
  devices : List device
  data : Option data_store
  calls : List kpi_call
deriving DecidableEq, Repr

/-- Conversion of an unsigned 64-bit value to `long long` (two's complement). -/
def to_long_long (v : Nat) : Int :=
  if v % 2 ^ 64 < 2 ^ 63 then (v % 2 ^ 64 : Nat) else ((v % 2 ^ 64 : Nat) : Int) - 2 ^ 64

/-- Source `dev_ioctl_bdev`. `data` stands for the caller's argument: the
`uint32_t` read by `DKIOCSETBLOCKSIZE`, or the server address handed to
`sock_connect` by `IOCTL_CONNECT_DEVICE`. `flags` and `proc` are unused by the
source. -/
def dev_ioctl_bdev (c : ioctl_codes) (k : kpi_socket) (devices : List device)
    (minor_number : Nat) (cmd : Nat) (data : Nat) : Option ioctl_result :=
  match devices[minor_number]? with
  | none => none
  | some dev =>
    if cmd = c.DKIOCGETBLOCKSIZE then
      some ⟨0, devices, some (.u32 dev.client_block_size), []⟩
    else if cmd = c.DKIOCSETBLOCKSIZE then
      some ⟨0, devices.set minor_number { dev with client_block_size := data % 2 ^ 32 },
        none, []⟩
    else if cmd = c.DKIOCGETBLOCKCOUNT then
      if ¬ (dev.connect_completed ≠ 0 ∧ dev.socket ≠ 0) then
        some ⟨ ENXIO, devices, none, []⟩
      else
        some ⟨0, devices,
          some (.s64 (to_long_long (dev.size >>> (log_2 dev.client_block_size).toNat))), []⟩
    else if cmd = c.IOCTL_CONNECT_DEVICE then
      if dev.socket ≠ 0 then
        some ⟨EBUSY, devices, none, []⟩
      else if k.sock_socket_result ≠ 0 then
        some ⟨k.sock_socket_result, devices, none, [.sock_socket minor_number]⟩
      else
        let so := k.sock_socket_new
        let result := k.sock_connect so data
        if result ≠ EINPROGRESS then
          some ⟨result, devices.set minor_number { dev with socket := 0 }, none,
            [.sock_socket minor_number, .sock_connect so data, .sock_close so]⟩
        else
          some ⟨0, devices.set minor_number { dev with socket := so }, none,
            [.sock_socket minor_number, .sock_connect so data]⟩
    else if cmd = c.IOCTL_CONNECTIVITY_CHECK then
      if dev.socket = 0 then
        some ⟨ ENXIO, devices, none, []⟩
      else
        some ⟨0, devices, some (.s32 (k.sock_isconnected dev.socket)),
          [.sock_isconnected dev.socket]⟩
    else
      some ⟨ENOTTY, devices, none, []⟩

/-! ## Sequences of calls on one device -/

/-- One call into the driver for a given minor number, with what the kernel
hands it: `dev_open` and `dev_close` with the calling process (and, for
`dev_close`, the indeterminate content of its local `ret`), `dev_strategy` with
a buffer, `dev_ioctl_bdev` with the kernel socket answers, the command and its
argument, and the upcall `connect_call_complete` with the socket it is for. -/
inductive event where
  | open_by (proc : Nat)
  | close_by (proc : Nat) (ret : Int)
  | strategy (bp : buf)
  | ioctl (k : kpi_socket) (cmd : Nat) (data : Nat)
  | connect_complete (socket : Nat)

/-- The device table after one call on minor `minor_number`. -/
def step (BLOCK_SIZE : Nat) (c : ioctl_codes) (minor_number : Nat) (devices : List device) :
    event → Option (List device)
  | .open_by proc => (dev_open devices minor_number proc).map Prod.snd
  | .close_by proc ret => (dev_close BLOCK_SIZE devices minor_number proc ret).map Prod.snd
  | .strategy bp => some (dev_strategy devices bp).1
  | .ioctl k cmd data =>
    (dev_ioctl_bdev c k devices minor_number cmd data).map ioctl_result.devices
  | .connect_complete socket => connect_call_complete devices socket minor_number

/-- The device table after a sequence of calls on minor `minor_number`, made
one after the other. -/
def run (BLOCK_SIZE : Nat) (c : ioctl_codes) (minor_number : Nat) :
    List device → List event → Option (List device)
  | devices, [] => some devices
  | devices, e :: es =>
    (step BLOCK_SIZE c minor_number devices e).bind
      fun devices1 => run BLOCK_SIZE c minor_number devices1 es

/-! ## Sample inputs -/

/-- A set of pairwise distinct command codes. -/
def sample_codes : ioctl_codes :=
  ⟨1, 2, 3, 4, 5, by decide⟩

/-- A kernel whose `sock_socket` succeeds with socket `77` and whose
`sock_connect` answers `EINPROGRESS`. -/
def kpi_in_progress : kpi_socket :=
  ⟨0, 77, fun _ _ => EINPROGRESS, fun _ => 0⟩

/-- A kernel whose `sock_socket` succeeds with socket `77` and whose
`sock_connect` completes at once, returning `0`. -/
def kpi_connected_at_once : kpi_socket :=
  ⟨0, 77, fun _ _ => 0, fun _ => 1⟩

/-- A kernel whose `sock_socket` fails with `ENOBUFS` (55). -/
def kpi_no_socket : kpi_socket :=
  ⟨55, 0, fun _ _ => 0, fun _ => 0⟩

/-- A closed, unconnected device with a 512-byte block size. -/
def dev_idle : device := ⟨0, 512, 0, 0, 0⟩

/-- A device opened by process `7`, connected on socket `9`, of 1 MiB with
4096-byte blocks. -/
def dev_ready : device := ⟨7, 4096, 1048576, 9, 1⟩

/-- The device `dev_ready` with a block size of 4097 bytes. -/
def dev_ready_odd : device := ⟨7, 4097, 1048576, 9, 1⟩

/-- A read request for 4096 bytes at block 8 of minor 0, not yet completed. -/
def buf_read : buf := ⟨0, 4096, 8, 1, 0, 0⟩

/-- A session on an idle device: connect, a stale and the matching completion,
a block-size change, a foreign close, a second open, I/O and a status query. -/
def sample_session : List event :=
  [.ioctl kpi_in_progress 4 0, .connect_complete 5, .connect_complete 77,
   .ioctl kpi_in_progress 2 1024, .close_by 8 0, .open_by 8, .strategy buf_read,
   .ioctl kpi_in_progress 3 0, .ioctl kpi_in_progress 99 0]

end NBD

namespace NBD

/-! ## Lemmas on the device table -/

/-- Reading the slot that was just written. -/
theorem table_get_set (devices : List device) (m : Nat) (dev d : device)
    (hdev : devices[m]? = some dev) : (devices.set m d)[m]? = some d := by
  have hlt : m < devices.length := by
    rcases Nat.lt_or_ge m devices.length with h | h
    · exact h
    · rw [List.getElem?_eq_none h] at hdev
      cases hdev
  simp [List.getElem?_set, hlt]

/-- Writing a slot twice keeps the second write. -/
theorem table_set_set (devices : List device) (m : Nat) (d e : device) :
    (devices.set m d).set m e = devices.set m e := by
  simp [List.set_set]

/-- Writing back what a slot holds changes nothing. -/
theorem table_set_same (devices : List device) (m : Nat) (dev : device)
    (hdev : devices[m]? = some dev) : devices.set m dev = devices := by
  induction devices generalizing m with
  | nil => simp
  | cons x xs ih =>
    cases m with
    | zero =>
      simp at hdev
      simp [hdev]
    | succ n =>
      simp at hdev
      simp [ih n hdev]

/-- The loop of `log_2` stops at zero. -/
theorem log_2_loop_zero (ret : Int) : log_2_loop 0 ret = ret := by
  rw [log_2_loop]
  simp

/-- One iteration of the loop of `log_2`. -/
theorem log_2_loop_pos (x : Nat) (ret : Int) (h : 0 < x) :
    log_2_loop x ret = log_2_loop (x >>> 1) (ret + 1) := by
  rw [log_2_loop]
  simp [h]

/-- The case labels of the `switch`, spelled out as inequalities. -/
theorem ioctl_codes_ne (c : ioctl_codes) :
    c.DKIOCGETBLOCKSIZE ≠ c.DKIOCSETBLOCKSIZE ∧ c.DKIOCGETBLOCKSIZE ≠ c.DKIOCGETBLOCKCOUNT ∧
    c.DKIOCGETBLOCKSIZE ≠ c.IOCTL_CONNECT_DEVICE ∧
    c.DKIOCGETBLOCKSIZE ≠ c.IOCTL_CONNECTIVITY_CHECK ∧
    c.DKIOCSETBLOCKSIZE ≠ c.DKIOCGETBLOCKCOUNT ∧ c.DKIOCSETBLOCKSIZE ≠ c.IOCTL_CONNECT_DEVICE ∧
    c.DKIOCSETBLOCKSIZE ≠ c.IOCTL_CONNECTIVITY_CHECK ∧
    c.DKIOCGETBLOCKCOUNT ≠ c.IOCTL_CONNECT_DEVICE ∧
    c.DKIOCGETBLOCKCOUNT ≠ c.IOCTL_CONNECTIVITY_CHECK ∧
    c.IOCTL_CONNECT_DEVICE ≠ c.IOCTL_CONNECTIVITY_CHECK := by
  have h := c.distinct_cases
  simp only [List.nodup_cons, List.mem_cons, List.mem_singleton, not_or] at h
  tauto

/-- The `DKIOCGETBLOCKCOUNT` case of `dev_ioctl_bdev`. -/
theorem ioctl_getblockcount_eq (c : ioctl_codes) (k : kpi_socket) (devices : List device)
    (m : Nat) (dev : device) (data : Nat) (hdev : devices[m]? = some dev) :
    dev_ioctl_bdev c k devices m c.DKIOCGETBLOCKCOUNT data =
      if ¬ (dev.connect_completed ≠ 0 ∧ dev.socket ≠ 0) then
        some ⟨ ENXIO, devices, none, []⟩
      else
        some ⟨0, devices,
          some (.s64 (to_long_long (dev.size >>> (log_2 dev.client_block_size).toNat))), []⟩ := by
  obtain ⟨-, h2, -, -, h5, -⟩ := ioctl_codes_ne c
  simp only [dev_ioctl_bdev, hdev, if_neg h2.symm, if_neg h5.symm, if_true]

/-- The `DKIOCGETBLOCKCOUNT` case on a connected device, with the value of
`log_2` named. -/
theorem ioctl_getblockcount_ready (c : ioctl_codes) (k : kpi_socket) (devices : List device)
    (m : Nat) (dev : device) (data : Nat) (n : Int) (hdev : devices[m]? = some dev)
    (hc : dev.connect_completed ≠ 0) (hs : dev.socket ≠ 0)
    (hn : log_2 dev.client_block_size = n) :
    dev_ioctl_bdev c k devices m c.DKIOCGETBLOCKCOUNT data =
      some ⟨0, devices, some (.s64 (to_long_long (dev.size >>> n.toNat))), []⟩ := by
  rw [ioctl_getblockcount_eq c k devices m dev data hdev, ← hn]
  have hcond : dev.connect_completed ≠ 0 ∧ dev.socket ≠ 0 := ⟨hc, hs⟩
  rw [if_neg (not_not.mpr hcond)]

/-- The `IOCTL_CONNECT_DEVICE` case of `dev_ioctl_bdev`. -/
theorem ioctl_connect_eq (c : ioctl_codes) (k : kpi_socket) (devices : List device)
    (m : Nat) (dev : device) (data : Nat) (hdev : devices[m]? = some dev) :
    dev_ioctl_bdev c k devices m c.IOCTL_CONNECT_DEVICE data =
      if dev.socket ≠ 0 then
        some ⟨EBUSY, devices, none, []⟩
      else if k.sock_socket_result ≠ 0 then
        some ⟨k.sock_socket_result, devices, none, [.sock_socket m]⟩
      else if k.sock_connect k.sock_socket_new data ≠ EINPROGRESS then
        some ⟨k.sock_connect k.sock_socket_new data, devices.set m { dev with socket := 0 },
          none, [.sock_socket m, .sock_connect k.sock_socket_new data,
            .sock_close k.sock_socket_new]⟩
      else
        some ⟨0, devices.set m { dev with socket := k.sock_socket_new }, none,
          [.sock_socket m, .sock_connect k.sock_socket_new data]⟩ := by
  obtain ⟨-, -, h3, -, -, h6, -, h8, -, -⟩ := ioctl_codes_ne c
  simp only [dev_ioctl_bdev, hdev, if_neg h3.symm, if_neg h6.symm, if_neg h8.symm, if_true]

/-! ## Open and close: theorems -/

/-- C1: for every device table, slot `m` holding `dev` and requester `p`
(non-null as in the claim): when `opened_by` is already set `dev_open` returns
`EBUSY` and leaves the table, hence every field of the device, unchanged;
otherwise it returns `0` and the slot holds `opened_by = p`, which is then set,
with `client_block_size`, `size`, `socket` and `connect_completed` as before. -/
theorem dev_open_contract (devices : List device) (m : Nat) (dev : device) (p : Nat)
    (hdev : devices[m]? = some dev) (hp : p ≠ 0) :
    (dev.opened_by ≠ 0 → dev_open devices m p = some (EBUSY, devices)) ∧
    (dev.opened_by = 0 →
      dev_open devices m p = some (0, devices.set m
        ⟨p, dev.client_block_size, dev.size, dev.socket, dev.connect_completed⟩) ∧
      (devices.set m
        ⟨p, dev.client_block_size, dev.size, dev.socket, dev.connect_completed⟩)[m]?.map
          device.opened_by = some p ∧ p ≠ 0) := by
  refine ⟨fun h => ?_, fun h => ⟨?_, ?_, hp⟩⟩
  · simp [dev_open, hdev, h]
  · simp [dev_open, hdev, h]
  · rw [table_get_set devices m dev _ hdev]
    rfl

/-- Witness of `dev_open_contract`: a free slot opened by process `7`. -/
theorem dev_open_contract_witness :
    ([dev_idle] : List device)[0]? = some dev_idle ∧ (7 : Nat) ≠ 0 ∧
    ((dev_idle.opened_by ≠ 0 → dev_open [dev_idle] 0 7 = some (EBUSY, [dev_idle])) ∧
    (dev_idle.opened_by = 0 →
      dev_open [dev_idle] 0 7 = some (0, [dev_idle].set 0
        ⟨7, dev_idle.client_block_size, dev_idle.size, dev_idle.socket,
          dev_idle.connect_completed⟩) ∧
      ([dev_idle].set 0
        ⟨7, dev_idle.client_block_size, dev_idle.size, dev_idle.socket,
          dev_idle.connect_completed⟩)[0]?.map
          device.opened_by = some 7 ∧ (7 : Nat) ≠ 0)) :=
  ⟨rfl, by decide, dev_open_contract [dev_idle] 0 dev_idle 7 rfl (by decide)⟩

/-- C2: for every device table, slot `m` holding `dev`, requester `p` with
`opened_by ≠ p` (also when nobody has the device open) and whatever the
uninitialised local held, `dev_close` returns `EINVAL` and leaves the table,
hence every field of the device, unchanged. -/
theorem dev_close_foreign (BLOCK_SIZE : Nat) (devices : List device) (m : Nat) (dev : device)
    (p : Nat) (ret : Int) (hdev : devices[m]? = some dev) (hne : dev.opened_by ≠ p) :
    dev_close BLOCK_SIZE devices m p ret = some (EINVAL, devices) := by
  simp [dev_close, hdev, hne]

/-- Witness of `dev_close_foreign`: process `8` closing a device held by `7`. -/
theorem dev_close_foreign_witness :
    ([dev_ready] : List device)[0]? = some dev_ready ∧ dev_ready.opened_by ≠ 8 ∧
    dev_close 512 [dev_ready] 0 8 0 = some (EINVAL, [dev_ready]) :=
  ⟨rfl, by decide, dev_close_foreign 512 [dev_ready] 0 dev_ready 8 0 rfl (by decide)⟩

/-- C3: for every device table and slot `m` holding `dev` with `opened_by`
equal to the requester `p`, `dev_close` leaves the slot with `opened_by` none,
`client_block_size` the default `BLOCK_SIZE` (a constant that fits the 32-bit
field) and `size`, `socket`, `connect_completed` exactly as they were; a
following `dev_open` by any `q` then succeeds on the same connection state. -/
theorem dev_close_keeps_connection (BLOCK_SIZE : Nat) (devices : List device) (m : Nat)
    (dev : device) (p q : Nat) (ret : Int) (hdev : devices[m]? = some dev)
    (hown : dev.opened_by = p) (hB : BLOCK_SIZE < 2 ^ 32) :
    (dev_close BLOCK_SIZE devices m p ret).map Prod.snd =
      some (devices.set m ⟨0, BLOCK_SIZE, dev.size, dev.socket, dev.connect_completed⟩) ∧
    ((dev_close BLOCK_SIZE devices m p ret).bind fun r => dev_open r.2 m q) =
      some (0, devices.set m ⟨q, BLOCK_SIZE, dev.size, dev.socket, dev.connect_completed⟩) := by
  have hmod : BLOCK_SIZE % 4294967296 = BLOCK_SIZE := Nat.mod_eq_of_lt (by simpa using hB)
  have hget := table_get_set devices m dev
    ⟨0, BLOCK_SIZE, dev.size, dev.socket, dev.connect_completed⟩ hdev
  constructor
  · simp [dev_close, hdev, hown, hmod]
  · simp [dev_close, hdev, hown, hmod, dev_open, hget, table_set_set]

/-- Witness of `dev_close_keeps_connection`: process `7` closes the connected
device it holds and process `8` opens it afterwards. -/
theorem dev_close_keeps_connection_witness :
    ([dev_ready] : List device)[0]? = some dev_ready ∧ dev_ready.opened_by = 7 ∧
    (512 : Nat) < 2 ^ 32 ∧
    ((dev_close 512 [dev_ready] 0 7 0).map Prod.snd =
      some ([dev_ready].set 0
        ⟨0, 512, dev_ready.size, dev_ready.socket, dev_ready.connect_completed⟩) ∧
    ((dev_close 512 [dev_ready] 0 7 0).bind fun r => dev_open r.2 0 8) =
      some (0, [dev_ready].set 0
        ⟨8, 512, dev_ready.size, dev_ready.socket, dev_ready.connect_completed⟩)) :=
  ⟨rfl, rfl, by decide,
    dev_close_keeps_connection 512 [dev_ready] 0 dev_ready 7 8 0 rfl rfl (by decide)⟩

/-- C4 (the code departs from the claim): on a matching close `dev_close` returns
the value its uninitialised local `ret` happened to hold, whatever it is; with
the local holding `22` a close by the owner `7` reports `EINVAL`, not `0`,
although it has cleared `opened_by`. -/
theorem dev_close_owner_return_indeterminate :
    (∀ ret : Int, (dev_close 512 [dev_ready] 0 7 ret).map Prod.fst = some ret) ∧
    dev_close 512 [dev_ready] 0 7 22 = some (EINVAL, [⟨0, 512, 1048576, 9, 1⟩]) ∧
    (dev_close 512 [dev_ready] 0 7 22).map Prod.fst ≠ some 0 := by
  refine ⟨fun ret => ?_, ?_, ?_⟩
  · simp [dev_close, dev_ready]
  · simp [dev_close, dev_ready, EINVAL]
  · simp [dev_close, dev_ready]

/-! ## Block count: theorems -/

/-- C5 (the code departs from the claim): on a connected device of 1048576
bytes `DKIOCGETBLOCKCOUNT` returns `0` and writes `128` both for a block size
of 4096 and for one of 4097, because it shifts by `log_2`, which is 13 for
either, while the integer quotients are 256 and 255. -/
theorem getblockcount_shift_not_quotient :
    dev_ioctl_bdev sample_codes kpi_in_progress [dev_ready] 0
        sample_codes.DKIOCGETBLOCKCOUNT 0 = some ⟨0, [dev_ready], some (.s64 128), []⟩ ∧
    log_2 dev_ready.client_block_size = 13 ∧
    dev_ready.size / dev_ready.client_block_size = 256 ∧
    dev_ioctl_bdev sample_codes kpi_in_progress [dev_ready_odd] 0
        sample_codes.DKIOCGETBLOCKCOUNT 0 = some ⟨0, [dev_ready_odd], some (.s64 128), []⟩ ∧
    log_2 dev_ready_odd.client_block_size = 13 ∧
    dev_ready_odd.size / dev_ready_odd.client_block_size = 255 := by
  have h1 : log_2 dev_ready.client_block_size = 13 := by
    simp [dev_ready, log_2, log_2_loop_pos, log_2_loop_zero]
  have h2 : log_2 dev_ready_odd.client_block_size = 13 := by
    simp [dev_ready_odd, log_2, log_2_loop_pos, log_2_loop_zero]
  refine ⟨?_, h1, by decide, ?_, h2, by decide⟩
  · rw [ioctl_getblockcount_ready sample_codes kpi_in_progress [dev_ready] 0 dev_ready 0 13 rfl
      (by decide) (by decide) h1]
    simp [dev_ready, to_long_long]
  · rw [ioctl_getblockcount_ready sample_codes kpi_in_progress [dev_ready_odd] 0 dev_ready_odd
      0 13 rfl (by decide) (by decide) h2]
    simp [dev_ready_odd, to_long_long]

/-- C6: for every device table and slot `m` holding `dev`, `DKIOCGETBLOCKCOUNT`
returns `ENXIO` exactly when the device has no socket or `connect_completed` is
not set; in that case nothing is stored through `data`, the device table is
unchanged and no kernel socket call is made. -/
theorem getblockcount_not_ready (c : ioctl_codes) (k : kpi_socket) (devices : List device)
    (m : Nat) (dev : device) (data : Nat) (hdev : devices[m]? = some dev) :
    ∃ r, dev_ioctl_bdev c k devices m c.DKIOCGETBLOCKCOUNT data = some r ∧
      (r.ret = ENXIO ↔ (dev.socket = 0 ∨ dev.connect_completed = 0)) ∧
      (r.ret = ENXIO → r.data = none ∧ r.devices = devices ∧ r.calls = []) := by
  rw [ioctl_getblockcount_eq c k devices m dev data hdev]
  by_cases hc : dev.connect_completed = 0
  · refine ⟨⟨ ENXIO, devices, none, []⟩, ?_, ?_, ?_⟩
    · simp [hc]
    · simp [hc]
    · simp
  · by_cases hs : dev.socket = 0
    · refine ⟨⟨ ENXIO, devices, none, []⟩, ?_, ?_, ?_⟩
      · simp [hs]
      · simp [hs]
      · simp
    · refine ⟨⟨0, devices,
        some (.s64 (to_long_long (dev.size >>> (log_2 dev.client_block_size).toNat))), []⟩,
        ?_, ?_, ?_⟩
      · rw [if_neg (not_not.mpr ⟨hc, hs⟩)]
      · simp [hc, hs, ENXIO]
      · simp [ ENXIO]

/-- Witness of `getblockcount_not_ready`: an unconnected device. -/
theorem getblockcount_not_ready_witness :
    ([dev_idle] : List device)[0]? = some dev_idle ∧
    ∃ r, dev_ioctl_bdev sample_codes kpi_in_progress [dev_idle] 0
        sample_codes.DKIOCGETBLOCKCOUNT 0 = some r ∧
      (r.ret = ENXIO ↔ (dev_idle.socket = 0 ∨ dev_idle.connect_completed = 0)) ∧
      (r.ret = ENXIO → r.data = none ∧ r.devices = [dev_idle] ∧ r.calls = []) :=
  ⟨rfl, getblockcount_not_ready sample_codes kpi_in_progress [dev_idle] 0 dev_idle 0 rfl⟩

/-! ## Connection completion: theorems -/

/-- C7: for every device table, minor number `m` (a slot holding `dev`) and
socket `s`, `connect_call_complete` with cookie `m` stores `1` in
`connect_completed` of slot `m` when the slot's socket equals `s`, and returns
the table unchanged when it differs; in both cases every other slot is as
before, the fields of slot `m` other than `connect_completed` are as before,
and `connect_completed` of slot `m` is `1` afterwards if and only if the
sockets were equal or it was `1` already. -/
theorem connect_call_complete_current_only (devices : List device) (m : Nat) (dev : device)
    (s : Nat) (hdev : devices[m]? = some dev) :
    ∃ r d, connect_call_complete devices s m = some r ∧ r[m]? = some d ∧
      (dev.socket = s → r = devices.set m
        ⟨dev.opened_by, dev.client_block_size, dev.size, dev.socket, 1⟩) ∧
      (dev.socket ≠ s → r = devices) ∧
      (∀ j, j ≠ m → r[j]? = devices[j]?) ∧
      d.opened_by = dev.opened_by ∧ d.client_block_size = dev.client_block_size ∧
      d.size = dev.size ∧ d.socket = dev.socket ∧
      (d.connect_completed = 1 ↔ (dev.socket = s ∨ dev.connect_completed = 1)) := by
  by_cases hs : dev.socket = s
  · refine ⟨devices.set m ⟨dev.opened_by, dev.client_block_size, dev.size, dev.socket, 1⟩,
      ⟨dev.opened_by, dev.client_block_size, dev.size, dev.socket, 1⟩, ?_,
      table_get_set devices m dev _ hdev, fun _ => rfl, fun h => absurd hs h, ?_,
      rfl, rfl, rfl, rfl, by simp [hs]⟩
    · simp [connect_call_complete, hdev, hs]
    · intro j hj
      simp [List.getElem?_set, Ne.symm hj]
  · refine ⟨devices, dev, ?_, hdev, fun h => absurd h hs, fun _ => rfl, fun _ _ => rfl,
      rfl, rfl, rfl, rfl, by simp [hs]⟩
    simp [connect_call_complete, hdev, hs]

/-- Witness of `connect_call_complete_current_only`: a completion for the stale
socket `5` arriving at a device whose socket is `9`. -/
theorem connect_call_complete_current_only_witness :
    ([dev_idle, dev_ready] : List device)[1]? = some dev_ready ∧
    ∃ r d, connect_call_complete [dev_idle, dev_ready] 5 1 = some r ∧ r[1]? = some d ∧
      (dev_ready.socket = 5 → r = [dev_idle, dev_ready].set 1
        ⟨dev_ready.opened_by, dev_ready.client_block_size, dev_ready.size,
          dev_ready.socket, 1⟩) ∧
      (dev_ready.socket ≠ 5 → r = [dev_idle, dev_ready]) ∧
      (∀ j, j ≠ 1 → r[j]? = [dev_idle, dev_ready][j]?) ∧
      d.opened_by = dev_ready.opened_by ∧
      d.client_block_size = dev_ready.client_block_size ∧
      d.size = dev_ready.size ∧ d.socket = dev_ready.socket ∧
      (d.connect_completed = 1 ↔ (dev_ready.socket = 5 ∨ dev_ready.connect_completed = 1)) :=
  ⟨rfl, connect_call_complete_current_only [dev_idle, dev_ready] 1 dev_ready 5 rfl⟩

/-! ## Connect command: theorems -/

/-- C8: for every device table and slot `m` holding a device that already has
a socket, `IOCTL_CONNECT_DEVICE` returns `EBUSY`, makes no kernel socket call
(no `sock_socket`, no `sock_connect`), stores nothing through `data` and leaves
the device table unchanged. -/
theorem ioctl_connect_busy (c : ioctl_codes) (k : kpi_socket) (devices : List device)
    (m : Nat) (dev : device) (data : Nat) (hdev : devices[m]? = some dev)
    (hsock : dev.socket ≠ 0) :
    dev_ioctl_bdev c k devices m c.IOCTL_CONNECT_DEVICE data =
      some ⟨EBUSY, devices, none, []⟩ := by
  rw [ioctl_connect_eq c k devices m dev data hdev, if_pos hsock]

/-- Witness of `ioctl_connect_busy`: connecting a device that holds socket `9`. -/
theorem ioctl_connect_busy_witness :
    ([dev_ready] : List device)[0]? = some dev_ready ∧ dev_ready.socket ≠ 0 ∧
    dev_ioctl_bdev sample_codes kpi_in_progress [dev_ready] 0
      sample_codes.IOCTL_CONNECT_DEVICE 0 = some ⟨EBUSY, [dev_ready], none, []⟩ :=
  ⟨rfl, by decide,
    ioctl_connect_busy sample_codes kpi_in_progress [dev_ready] 0 dev_ready 0 rfl (by decide)⟩

/-- The failure paths of `IOCTL_CONNECT_DEVICE` on a device without a socket:
when `sock_socket` fails, or `sock_connect` answers anything but `EINPROGRESS`,
the command returns that answer unchanged and slot `m` is left with no socket
and its other fields as before (the socket created, if any, is closed). -/
theorem ioctl_connect_failure (c : ioctl_codes) (k : kpi_socket) (devices : List device)
    (m : Nat) (dev : device) (data : Nat) (hdev : devices[m]? = some dev)
    (hsock : dev.socket = 0) :
    (k.sock_socket_result ≠ 0 →
      dev_ioctl_bdev c k devices m c.IOCTL_CONNECT_DEVICE data =
        some ⟨k.sock_socket_result, devices, none, [.sock_socket m]⟩) ∧
    (k.sock_socket_result = 0 → k.sock_connect k.sock_socket_new data ≠ EINPROGRESS →
      dev_ioctl_bdev c k devices m c.IOCTL_CONNECT_DEVICE data =
        some ⟨k.sock_connect k.sock_socket_new data, devices, none,
          [.sock_socket m, .sock_connect k.sock_socket_new data,
            .sock_close k.sock_socket_new]⟩) := by
  have hback : devices.set m { dev with socket := 0 } = devices := by
    have : ({ dev with socket := 0 } : device) = dev := by
      cases dev
      simp_all
    rw [this, table_set_same devices m dev hdev]
  rw [ioctl_connect_eq c k devices m dev data hdev]
  refine ⟨fun h => ?_, fun h1 h2 => ?_⟩
  · simp [hsock, h]
  · simp [hsock, h1, h2, hback]

/-- C9 (the code departs from the claim): on a device without a socket, when
`sock_socket` succeeds and `sock_connect` answers `0`, a result other than
`EINPROGRESS`, the command closes the new socket and leaves the socket field
none, yet returns `0`, a success status, to the caller. -/
theorem ioctl_connect_zero_result_returns_success :
    kpi_connected_at_once.sock_connect kpi_connected_at_once.sock_socket_new 0 ≠ EINPROGRESS ∧
    dev_ioctl_bdev sample_codes kpi_connected_at_once [dev_idle] 0
      sample_codes.IOCTL_CONNECT_DEVICE 0 =
        some ⟨0, [dev_idle], none, [.sock_socket 0, .sock_connect 77 0, .sock_close 77]⟩ := by
  constructor
  · decide
  · rw [ioctl_connect_eq sample_codes kpi_connected_at_once [dev_idle] 0 dev_idle 0 rfl]
    simp [dev_idle, kpi_connected_at_once, EINPROGRESS]

/-- C10, as stated, fails: with `sock_socket` succeeding and `sock_connect`
answering `EINPROGRESS`, the status returned to the caller is `0`, not
`EINPROGRESS`. -/
theorem ioctl_connect_in_progress_not_returned :
    kpi_in_progress.sock_socket_result = 0 ∧
    kpi_in_progress.sock_connect kpi_in_progress.sock_socket_new 0 = EINPROGRESS ∧
    (dev_ioctl_bdev sample_codes kpi_in_progress [dev_idle] 0
      sample_codes.IOCTL_CONNECT_DEVICE 0).map ioctl_result.ret = some 0 ∧
    ¬ ((dev_ioctl_bdev sample_codes kpi_in_progress [dev_idle] 0
      sample_codes.IOCTL_CONNECT_DEVICE 0).map ioctl_result.ret = some EINPROGRESS) := by
  have h : dev_ioctl_bdev sample_codes kpi_in_progress [dev_idle] 0
      sample_codes.IOCTL_CONNECT_DEVICE 0 =
        some ⟨0, [⟨0, 512, 0, 77, 0⟩], none, [.sock_socket 0, .sock_connect 77 0]⟩ := by
    rw [ioctl_connect_eq sample_codes kpi_in_progress [dev_idle] 0 dev_idle 0 rfl]
    simp [dev_idle, kpi_in_progress]
  refine ⟨rfl, rfl, ?_, ?_⟩
  · rw [h]
    rfl
  · rw [h]
    simp [EINPROGRESS]

/-- C10, amended: for every device table and slot `m` holding a device with no
socket, when `sock_socket` succeeds and the non-blocking `sock_connect` answers
`EINPROGRESS`, the command returns `0` to the caller after those two calls
alone, slot `m` holds the newly created socket, and `connect_completed` and
the other fields are as before. -/
theorem ioctl_connect_in_progress (c : ioctl_codes) (k : kpi_socket) (devices : List device)
    (m : Nat) (dev : device) (data : Nat) (hdev : devices[m]? = some dev)
    (hsock : dev.socket = 0) (hcreate : k.sock_socket_result = 0)
    (hconn : k.sock_connect k.sock_socket_new data = EINPROGRESS) :
    dev_ioctl_bdev c k devices m c.IOCTL_CONNECT_DEVICE data =
      some ⟨0, devices.set m ⟨dev.opened_by, dev.client_block_size, dev.size,
          k.sock_socket_new, dev.connect_completed⟩, none,
        [.sock_socket m, .sock_connect k.sock_socket_new data]⟩ := by
  rw [ioctl_connect_eq c k devices m dev data hdev]
  simp [hsock, hcreate, hconn]

/-- Witness of `ioctl_connect_in_progress`: connecting an idle device. -/
theorem ioctl_connect_in_progress_witness :
    ([dev_idle] : List device)[0]? = some dev_idle ∧ dev_idle.socket = 0 ∧
    kpi_in_progress.sock_socket_result = 0 ∧
    kpi_in_progress.sock_connect kpi_in_progress.sock_socket_new 0 = EINPROGRESS ∧
    dev_ioctl_bdev sample_codes kpi_in_progress [dev_idle] 0
      sample_codes.IOCTL_CONNECT_DEVICE 0 =
      some ⟨0, [dev_idle].set 0 ⟨dev_idle.opened_by, dev_idle.client_block_size,
          dev_idle.size, kpi_in_progress.sock_socket_new, dev_idle.connect_completed⟩, none,
        [.sock_socket 0, .sock_connect kpi_in_progress.sock_socket_new 0]⟩ :=
  ⟨rfl, rfl, rfl, rfl,
    ioctl_connect_in_progress sample_codes kpi_in_progress [dev_idle] 0 dev_idle 0 rfl rfl
      rfl rfl⟩

/-! ## Remaining control commands: theorems -/

/-- C12: for every device table, slot `m` in range and command code other than
the five the `switch` names, `dev_ioctl_bdev` returns `ENOTTY`, leaves the
device table unchanged, stores nothing through `data` and makes no kernel
socket call. -/
theorem ioctl_unknown_command (c : ioctl_codes) (k : kpi_socket) (devices : List device)
    (m : Nat) (dev : device) (cmd data : Nat) (hdev : devices[m]? = some dev)
    (h1 : cmd ≠ c.DKIOCGETBLOCKSIZE) (h2 : cmd ≠ c.DKIOCSETBLOCKSIZE)
    (h3 : cmd ≠ c.DKIOCGETBLOCKCOUNT) (h4 : cmd ≠ c.IOCTL_CONNECT_DEVICE)
    (h5 : cmd ≠ c.IOCTL_CONNECTIVITY_CHECK) :
    dev_ioctl_bdev c k devices m cmd data = some ⟨ENOTTY, devices, none, []⟩ := by
  simp only [dev_ioctl_bdev, hdev, if_neg h1, if_neg h2, if_neg h3, if_neg h4, if_neg h5]

/-- Witness of `ioctl_unknown_command`: command code `99` on a connected device. -/
theorem ioctl_unknown_command_witness :
    ([dev_ready] : List device)[0]? = some dev_ready ∧
    (99 : Nat) ≠ sample_codes.DKIOCGETBLOCKSIZE ∧ (99 : Nat) ≠ sample_codes.DKIOCSETBLOCKSIZE ∧
    (99 : Nat) ≠ sample_codes.DKIOCGETBLOCKCOUNT ∧
    (99 : Nat) ≠ sample_codes.IOCTL_CONNECT_DEVICE ∧
    (99 : Nat) ≠ sample_codes.IOCTL_CONNECTIVITY_CHECK ∧
    dev_ioctl_bdev sample_codes kpi_in_progress [dev_ready] 0 99 0 =
      some ⟨ENOTTY, [dev_ready], none, []⟩ :=
  ⟨rfl, by decide, by decide, by decide, by decide, by decide,
    ioctl_unknown_command sample_codes kpi_in_progress [dev_ready] 0 dev_ready 99 0 rfl
      (by decide) (by decide) (by decide) (by decide) (by decide)⟩

/-- C13: for every device table and slot `m` holding `dev`,
`IOCTL_CONNECTIVITY_CHECK` returns `ENXIO`, stores nothing and asks the kernel
nothing when the device has no socket; when it has one the command returns `0`
and stores exactly what `sock_isconnected` answers for that socket; in both
cases the device table is unchanged. -/
theorem ioctl_connectivity_check (c : ioctl_codes) (k : kpi_socket) (devices : List device)
    (m : Nat) (dev : device) (data : Nat) (hdev : devices[m]? = some dev) :
    (dev.socket = 0 →
      dev_ioctl_bdev c k devices m c.IOCTL_CONNECTIVITY_CHECK data =
        some ⟨ ENXIO, devices, none, []⟩) ∧
    (dev.socket ≠ 0 →
      dev_ioctl_bdev c k devices m c.IOCTL_CONNECTIVITY_CHECK data =
        some ⟨0, devices, some (.s32 (k.sock_isconnected dev.socket)),
          [.sock_isconnected dev.socket]⟩) := by
  obtain ⟨-, -, -, h4, -, -, h7, -, h9, h10⟩ := ioctl_codes_ne c
  constructor
  · intro hs
    simp only [dev_ioctl_bdev, hdev, if_neg h4.symm, if_neg h7.symm, if_neg h9.symm,
      if_neg h10.symm, if_true, if_pos hs]
  · intro hs
    simp only [dev_ioctl_bdev, hdev, if_neg h4.symm, if_neg h7.symm, if_neg h9.symm,
      if_neg h10.symm, if_true, if_neg hs]

/-- Witness of `ioctl_connectivity_check`: a device holding socket `9`, which
the kernel reports as not connected. -/
theorem ioctl_connectivity_check_witness :
    ([dev_ready] : List device)[0]? = some dev_ready ∧
    ((dev_ready.socket = 0 →
      dev_ioctl_bdev sample_codes kpi_in_progress [dev_ready] 0
        sample_codes.IOCTL_CONNECTIVITY_CHECK 0 = some ⟨ ENXIO, [dev_ready], none, []⟩) ∧
    (dev_ready.socket ≠ 0 →
      dev_ioctl_bdev sample_codes kpi_in_progress [dev_ready] 0
        sample_codes.IOCTL_CONNECTIVITY_CHECK 0 =
        some ⟨0, [dev_ready], some (.s32 (kpi_in_progress.sock_isconnected dev_ready.socket)),
          [.sock_isconnected dev_ready.socket]⟩)) :=
  ⟨rfl, ioctl_connectivity_check sample_codes kpi_in_progress [dev_ready] 0 dev_ready 0 rfl⟩

/-- C14: for every device table, slot `m` holding `dev` (whoever, if anyone,
has it open) and 32-bit value `v`, zero and non-powers-of-two included,
`DKIOCSETBLOCKSIZE` with `v` returns `0` and changes only `client_block_size`,
to `v`; a following `DKIOCGETBLOCKSIZE` returns `0`, stores exactly `v` and
leaves the device table as it is. -/
theorem ioctl_blocksize_set_get (c : ioctl_codes) (k k1 : kpi_socket) (devices : List device)
    (m : Nat) (dev : device) (v data : Nat) (hdev : devices[m]? = some dev)
    (hv : v < 2 ^ 32) :
    dev_ioctl_bdev c k devices m c.DKIOCSETBLOCKSIZE v =
      some ⟨0, devices.set m ⟨dev.opened_by, v, dev.size, dev.socket, dev.connect_completed⟩,
        none, []⟩ ∧
    dev_ioctl_bdev c k1
        (devices.set m ⟨dev.opened_by, v, dev.size, dev.socket, dev.connect_completed⟩) m
        c.DKIOCGETBLOCKSIZE data =
      some ⟨0, devices.set m ⟨dev.opened_by, v, dev.size, dev.socket, dev.connect_completed⟩,
        some (.u32 v), []⟩ := by
  obtain ⟨h1, -⟩ := ioctl_codes_ne c
  have hmod : v % 2 ^ 32 = v := Nat.mod_eq_of_lt hv
  have hget := table_get_set devices m dev
    ⟨dev.opened_by, v, dev.size, dev.socket, dev.connect_completed⟩ hdev
  constructor
  · simp only [dev_ioctl_bdev, hdev, if_neg h1.symm, if_true, hmod]
  · simp only [dev_ioctl_bdev, hget, if_true]

/-- Witness of `ioctl_blocksize_set_get`: block size `0` set on a device that
nobody has open. -/
theorem ioctl_blocksize_set_get_witness :
    ([dev_idle] : List device)[0]? = some dev_idle ∧ (0 : Nat) < 2 ^ 32 ∧
    (dev_ioctl_bdev sample_codes kpi_in_progress [dev_idle] 0
        sample_codes.DKIOCSETBLOCKSIZE 0 =
      some ⟨0, [dev_idle].set 0
        ⟨dev_idle.opened_by, 0, dev_idle.size, dev_idle.socket, dev_idle.connect_completed⟩,
        none, []⟩ ∧
    dev_ioctl_bdev sample_codes kpi_no_socket
        ([dev_idle].set 0
          ⟨dev_idle.opened_by, 0, dev_idle.size, dev_idle.socket, dev_idle.connect_completed⟩)
        0 sample_codes.DKIOCGETBLOCKSIZE 5 =
      some ⟨0, [dev_idle].set 0
        ⟨dev_idle.opened_by, 0, dev_idle.size, dev_idle.socket, dev_idle.connect_completed⟩,
        some (.u32 0), []⟩) :=
  ⟨rfl, by decide,
    ioctl_blocksize_set_get sample_codes kpi_in_progress kpi_no_socket [dev_idle] 0 dev_idle
      0 5 rfl (by decide)⟩

/-! ## Block I/O: theorems -/

/-- C15: for every device table and every request (any device, flags, starting
block and byte count), `dev_strategy` stores the fixed error `EIO` in the
request, calls its completion exactly once more, leaves the request's other
fields alone and returns the device table unchanged. -/
theorem dev_strategy_fixed_error (devices : List device) (bp : buf) :
    (dev_strategy devices bp).1 = devices ∧
    (dev_strategy devices bp).2.b_error = EIO ∧
    (dev_strategy devices bp).2.biodone_calls = bp.biodone_calls + 1 ∧
    (dev_strategy devices bp).2.b_dev = bp.b_dev ∧
    (dev_strategy devices bp).2.b_bcount = bp.b_bcount ∧
    (dev_strategy devices bp).2.b_blkno = bp.b_blkno ∧
    (dev_strategy devices bp).2.b_flags = bp.b_flags :=
  ⟨rfl, rfl, rfl, rfl, rfl, rfl, rfl⟩

/-- C16, as stated, fails: a read request to a device with no socket and no
completed connect is completed with `EIO`, which is not `ENXIO`. -/
theorem dev_strategy_not_enxio :
    ([dev_idle] : List device)[buf_read.b_dev]? = some dev_idle ∧
    dev_idle.socket = 0 ∧ dev_idle.connect_completed = 0 ∧
    (dev_strategy [dev_idle] buf_read).2.b_error = 5 ∧
    (dev_strategy [dev_idle] buf_read).2.b_error ≠ ENXIO := by
  refine ⟨rfl, rfl, rfl, rfl, ?_⟩
  decide

/-- C16, amended: for every request issued to a device that has no connected
transport (no socket, or `connect_completed` not set), `dev_strategy` rejects
the request with the fixed error `EIO`, not `ENXIO`, completing it once and
leaving the device as it is. -/
theorem dev_strategy_unconnected (devices : List device) (bp : buf) (dev : device)
    (hdev : devices[bp.b_dev]? = some dev)
    (hnot : dev.socket = 0 ∨ dev.connect_completed = 0) :
    (dev_strategy devices bp).2.b_error = EIO ∧
    (dev_strategy devices bp).2.b_error ≠ ENXIO ∧
    (dev_strategy devices bp).2.biodone_calls = bp.biodone_calls + 1 ∧
    (dev_strategy devices bp).1[bp.b_dev]? = some dev ∧
    (dev.socket = 0 ∨ dev.connect_completed = 0) := by
  refine ⟨rfl, ?_, rfl, hdev, hnot⟩
  show EIO ≠ ENXIO
  decide

/-- Witness of `dev_strategy_unconnected`: a read request to an idle device. -/
theorem dev_strategy_unconnected_witness :
    ([dev_idle] : List device)[buf_read.b_dev]? = some dev_idle ∧
    (dev_idle.socket = 0 ∨ dev_idle.connect_completed = 0) ∧
    ((dev_strategy [dev_idle] buf_read).2.b_error = EIO ∧
    (dev_strategy [dev_idle] buf_read).2.b_error ≠ ENXIO ∧
    (dev_strategy [dev_idle] buf_read).2.biodone_calls = buf_read.biodone_calls + 1 ∧
    (dev_strategy [dev_idle] buf_read).1[buf_read.b_dev]? = some dev_idle ∧
    (dev_idle.socket = 0 ∨ dev_idle.connect_completed = 0)) :=
  ⟨rfl, Or.inl rfl,
    dev_strategy_unconnected [dev_idle] buf_read dev_idle rfl (Or.inl rfl)⟩

/-! ## The helper `log_2`: theorems -/

/-- Exponents of two compare as the powers do. -/
theorem two_pow_lt_imp (a b : Nat) (h : 2 ^ a < 2 ^ b) : a < b := by
  by_contra hcon
  have hle : 2 ^ b ≤ 2 ^ a := Nat.pow_le_pow_right (by norm_num) (Nat.le_of_not_lt hcon)
  omega

/-- The loop of `log_2` adds the bit length of `x` to its counter. -/
theorem log_2_loop_spec (x : Nat) :
    ∀ ret : Int, ∃ n : Nat, log_2_loop x ret = ret + n ∧ x < 2 ^ n ∧ (x = 0 → n = 0) ∧
      (0 < x → 2 ^ (n - 1) ≤ x) := by
  induction x using Nat.strong_induction_on with
  | _ x ih =>
    intro ret
    rcases Nat.eq_zero_or_pos x with h0 | hpos
    · subst h0
      exact ⟨0, by simp [log_2_loop_zero], by simp, fun _ => rfl, fun h => absurd h (by simp)⟩
    · have hhalf : x >>> 1 = x / 2 := by simp [Nat.shiftRight_eq_div_pow]
      have hlt : x >>> 1 < x := by omega
      obtain ⟨n, hn, hub, hzero, hlb⟩ := ih (x >>> 1) hlt (ret + 1)
      rw [hhalf] at hub hzero hlb
      refine ⟨n + 1, ?_, ?_, ?_, ?_⟩
      · rw [log_2_loop_pos x ret hpos, hn]
        push_cast
        ring
      · rw [pow_succ]
        omega
      · intro hx0
        omega
      · intro _
        simp only [Nat.add_sub_cancel]
        rcases Nat.eq_zero_or_pos (x / 2) with hz | hp2
        · rw [hzero hz]
          simpa using hpos
        · have hl := hlb hp2
          cases n with
          | zero => simp at hub; omega
          | succ k =>
            simp only [Nat.add_sub_cancel] at hl
            rw [pow_succ]
            omega

/-- C17: `log_2` is a total function (its loop is defined by recursion on a
strictly decreasing `x`), and for every 64-bit `x` it returns the bit length
`n` of `x`: at most 64, `0` for `x = 0`, and for `x > 0` the one `n` with
`2 ^ (n - 1) ≤ x < 2 ^ n`. Consequently, for a connected device whose 32-bit
`client_block_size` is anything, zero included, `DKIOCGETBLOCKCOUNT` returns
`0` having shifted `size` by an amount between 0 and 32; it performs no
division and no shift by 64 or more. -/
theorem log_2_bit_length (x : Nat) (hx : x < 2 ^ 64) (c : ioctl_codes) (k : kpi_socket)
    (devices : List device) (m : Nat) (dev : device) (data : Nat)
    (hdev : devices[m]? = some dev) (hc : dev.connect_completed ≠ 0) (hs : dev.socket ≠ 0)
    (hcbs : dev.client_block_size < 2 ^ 32) :
    (∃ n : Nat, log_2 x = n ∧ n ≤ 64 ∧ x < 2 ^ n ∧ (x = 0 → n = 0) ∧
      (0 < x → 2 ^ (n - 1) ≤ x ∧ ∀ j : Nat, 2 ^ (j - 1) ≤ x → x < 2 ^ j → j = n)) ∧
    (∃ n : Nat, log_2 dev.client_block_size = n ∧ n ≤ 32 ∧
      dev_ioctl_bdev c k devices m c.DKIOCGETBLOCKCOUNT data =
        some ⟨0, devices, some (.s64 (to_long_long (dev.size >>> n))), []⟩) := by
  constructor
  · obtain ⟨n, hn, hub, hzero, hlb⟩ := log_2_loop_spec x 0
    refine ⟨n, ?_, ?_, hub, hzero, fun hpos => ⟨hlb hpos, fun j hj1 hj2 => ?_⟩⟩
    · rw [log_2, Nat.mod_eq_of_lt hx, hn]
      simp
    · rcases Nat.eq_zero_or_pos x with h0 | hpos
      · rw [hzero h0]
        omega
      · have h1 : 2 ^ (n - 1) < 2 ^ 64 := Nat.lt_of_le_of_lt (hlb hpos) hx
        have h2 := two_pow_lt_imp _ _ h1
        omega
    · have h1 : 2 ^ (j - 1) < 2 ^ n := Nat.lt_of_le_of_lt hj1 hub
      have h2 : 2 ^ (n - 1) < 2 ^ j := Nat.lt_of_le_of_lt (hlb hpos) hj2
      have h3 := two_pow_lt_imp _ _ h1
      have h4 := two_pow_lt_imp _ _ h2
      have h5 : 0 < n := by
        rcases Nat.eq_zero_or_pos n with h | h
        · rw [h] at hub
          simp at hub
          omega
        · exact h
      have h6 : 0 < j := by
        rcases Nat.eq_zero_or_pos j with h | h
        · rw [h] at hj2
          simp at hj2
          omega
        · exact h
      omega
  · obtain ⟨n, hn, hub, hzero, hlb⟩ := log_2_loop_spec dev.client_block_size 0
    have hlog : log_2 dev.client_block_size = n := by
      have h64 : dev.client_block_size < 2 ^ 64 :=
        Nat.lt_of_lt_of_le hcbs (Nat.pow_le_pow_right (by norm_num) (by norm_num))
      rw [log_2, Nat.mod_eq_of_lt h64, hn]
      simp
    refine ⟨n, hlog, ?_, ?_⟩
    · rcases Nat.eq_zero_or_pos dev.client_block_size with h0 | hpos
      · rw [hzero h0]
        omega
      · have h1 : 2 ^ (n - 1) < 2 ^ 32 := Nat.lt_of_le_of_lt (hlb hpos) hcbs
        have h2 := two_pow_lt_imp _ _ h1
        omega
    · have hready := ioctl_getblockcount_ready c k devices m dev data n hdev hc hs hlog
      rw [hready]
      simp

/-- Witness of `log_2_bit_length`: `x = 4096` and the connected device
`dev_ready`. -/
theorem log_2_bit_length_witness :
    (4096 : Nat) < 2 ^ 64 ∧ ([dev_ready] : List device)[0]? = some dev_ready ∧
    dev_ready.connect_completed ≠ 0 ∧ dev_ready.socket ≠ 0 ∧
    dev_ready.client_block_size < 2 ^ 32 ∧
    ((∃ n : Nat, log_2 4096 = n ∧ n ≤ 64 ∧ 4096 < 2 ^ n ∧ (4096 = 0 → n = 0) ∧
      (0 < 4096 → 2 ^ (n - 1) ≤ 4096 ∧
        ∀ j : Nat, 2 ^ (j - 1) ≤ 4096 → 4096 < 2 ^ j → j = n)) ∧
    (∃ n : Nat, log_2 dev_ready.client_block_size = n ∧ n ≤ 32 ∧
      dev_ioctl_bdev sample_codes kpi_in_progress [dev_ready] 0
          sample_codes.DKIOCGETBLOCKCOUNT 0 =
        some ⟨0, [dev_ready], some (.s64 (to_long_long (dev_ready.size >>> n))), []⟩)) :=
  ⟨by decide, rfl, by decide, by decide, by decide,
    log_2_bit_length 4096 (by decide) sample_codes kpi_in_progress [dev_ready] 0 dev_ready 0
      rfl (by decide) (by decide) (by decide)⟩

/-! ## Sequences of calls: theorems -/

/-- What any control command does to the slot it addresses: it always returns,
the slot still exists, `opened_by`, `size` and `connect_completed` are as
before, and the socket is as before unless the device had none. -/
theorem ioctl_slot (c : ioctl_codes) (k : kpi_socket) (devices : List device) (m : Nat)
    (cmd data : Nat) (dev : device) (hdev : devices[m]? = some dev) :
    ∃ r d, dev_ioctl_bdev c k devices m cmd data = some r ∧ r.devices[m]? = some d ∧
      d.opened_by = dev.opened_by ∧ d.size = dev.size ∧
      d.connect_completed = dev.connect_completed ∧
      (d.socket = dev.socket ∨ dev.socket = 0) := by
  simp only [dev_ioctl_bdev, hdev]
  split_ifs with h1 h2 h3 h4 h5 h6 h7 h8 h9 h10
  all_goals first
    | exact ⟨_, dev, rfl, hdev, rfl, rfl, rfl, Or.inl rfl⟩
    | exact ⟨_, _, rfl, table_get_set devices m dev _ hdev, rfl, rfl, rfl, Or.inl rfl⟩
    | exact ⟨_, _, rfl, table_get_set devices m dev _ hdev, rfl, rfl, rfl,
        Or.inr (not_not.mp ‹¬dev.socket ≠ 0›)⟩

/-- What one call does to the slot it addresses: the call returns, the slot
still exists, `opened_by` changes only by a successful open or a close by the
holder, `connect_completed` only by a completion for the current socket, and
the socket only when the device had none. -/
theorem step_slot (BLOCK_SIZE : Nat) (c : ioctl_codes) (m : Nat) (devices : List device)
    (dev : device) (e : event) (hdev : devices[m]? = some dev) :
    ∃ devices1 d, step BLOCK_SIZE c m devices e = some devices1 ∧ devices1[m]? = some d ∧
      (d.opened_by = dev.opened_by ∨
        (∃ q, e = .open_by q ∧ dev.opened_by = 0 ∧ d.opened_by = q) ∨
        (∃ r, e = .close_by dev.opened_by r ∧ d.opened_by = 0)) ∧
      (d.connect_completed = dev.connect_completed ∨
        (∃ s, e = .connect_complete s ∧ dev.socket = s ∧ d.connect_completed = 1)) ∧
      (d.socket = dev.socket ∨ dev.socket = 0) := by
  cases e with
  | open_by q =>
    by_cases h : dev.opened_by = 0
    · refine ⟨_, _, ?_, table_get_set devices m dev { dev with opened_by := q } hdev,
        Or.inr (Or.inl ⟨q, rfl, h, rfl⟩), Or.inl rfl, Or.inl rfl⟩
      simp [step, dev_open, hdev, h]
    · refine ⟨devices, dev, ?_, hdev, Or.inl rfl, Or.inl rfl, Or.inl rfl⟩
      simp [step, dev_open, hdev, h]
  | close_by q r =>
    by_cases h : dev.opened_by = q
    · refine ⟨_, _, ?_, table_get_set devices m dev
        { dev with opened_by := 0, client_block_size := BLOCK_SIZE % 2 ^ 32 } hdev,
        Or.inr (Or.inr ⟨r, by rw [h], rfl⟩), Or.inl rfl, Or.inl rfl⟩
      simp [step, dev_close, hdev, h]
    · refine ⟨devices, dev, ?_, hdev, Or.inl rfl, Or.inl rfl, Or.inl rfl⟩
      simp [step, dev_close, hdev, h]
  | strategy bp =>
    exact ⟨devices, dev, rfl, hdev, Or.inl rfl, Or.inl rfl, Or.inl rfl⟩
  | ioctl k cmd data =>
    obtain ⟨r, d, hr, hd, ho, -, hcc, hso⟩ := ioctl_slot c k devices m cmd data dev hdev
    refine ⟨r.devices, d, ?_, hd, Or.inl ho, Or.inl hcc, hso⟩
    simp [step, hr]
  | connect_complete s =>
    by_cases h : dev.socket = s
    · refine ⟨_, _, ?_, table_get_set devices m dev { dev with connect_completed := 1 } hdev,
        Or.inl rfl, Or.inr ⟨s, rfl, h, rfl⟩, Or.inl rfl⟩
      simp [step, connect_call_complete, hdev, h]
    · refine ⟨devices, dev, ?_, hdev, Or.inl rfl, Or.inl rfl, Or.inl rfl⟩
      simp [step, connect_call_complete, hdev, h]

/-- While the holder `p` does not close the device, every sequence of calls
runs to the end and leaves `opened_by = p`. -/
theorem run_keeps_owner (BLOCK_SIZE : Nat) (c : ioctl_codes) (m : Nat) (p : Nat)
    (hp : p ≠ 0) (es : List event) :
    ∀ (devices : List device) (dev : device), devices[m]? = some dev → dev.opened_by = p →
      (∀ r, event.close_by p r ∉ es) →
      ∃ devices2 d, run BLOCK_SIZE c m devices es = some devices2 ∧
        devices2[m]? = some d ∧ d.opened_by = p := by
  induction es with
  | nil =>
    intro devices dev hdev hown _
    exact ⟨devices, dev, rfl, hdev, hown⟩
  | cons e es ih =>
    intro devices dev hdev hown hes
    obtain ⟨devices1, d, hstep, hd, ho, -, -⟩ := step_slot BLOCK_SIZE c m devices dev e hdev
    have hd_own : d.opened_by = p := by
      rcases ho with h | ⟨q, -, h0, -⟩ | ⟨r, hr, -⟩
      · rw [h, hown]
      · rw [hown] at h0
        exact absurd h0 hp
      · rw [hown] at hr
        exact absurd (by rw [hr]; exact List.mem_cons_self _ _) (hes r)
    obtain ⟨devices2, d2, hrun, hd2, ho2⟩ := ih devices1 d hd hd_own
      (fun r hr => hes r (List.mem_cons_of_mem _ hr))
    exact ⟨devices2, d2, by simp [run, hstep, hrun], hd2, ho2⟩

/-- C11: once `dev_open` by a non-null `p` has succeeded on slot `m` (which can
only happen when nobody held the device), then after any number of further
calls on the device (opens, closes, block I/O, control commands, connect
completions) among which there is no `dev_close` by `p`, `opened_by` is still
`p` and `dev_open` by any requester returns `EBUSY` and changes nothing; and in
any state whatever, a call that is neither a `dev_open` nor a `dev_close` by
the current holder leaves `opened_by` as it is. -/
theorem opened_by_exclusive (BLOCK_SIZE : Nat) (c : ioctl_codes) (m : Nat)
    (devices devices1 : List device) (p : Nat) (es : List event) (hp : p ≠ 0)
    (hopen : dev_open devices m p = some (0, devices1))
    (hes : ∀ r, event.close_by p r ∉ es) :
    devices[m]?.map device.opened_by = some 0 ∧
    (∀ n, ∃ devices2, run BLOCK_SIZE c m devices1 (es.take n) = some devices2 ∧
      devices2[m]?.map device.opened_by = some p ∧
      ∀ q, dev_open devices2 m q = some (EBUSY, devices2)) ∧
    (∀ (tbl : List device) (d : device) (e : event), tbl[m]? = some d →
      (∀ q, e ≠ .open_by q) → (∀ r, e ≠ .close_by d.opened_by r) →
      ∃ tbl1 d1, step BLOCK_SIZE c m tbl e = some tbl1 ∧ tbl1[m]? = some d1 ∧
        d1.opened_by = d.opened_by) := by
  cases hdev : devices[m]? with
  | none => simp [dev_open, hdev] at hopen
  | some dev =>
    have hfree : dev.opened_by = 0 := by
      by_contra hne
      simp [dev_open, hdev, hne, EBUSY] at hopen
    have h1 : devices1 = devices.set m { dev with opened_by := p } := by
      simp [dev_open, hdev, hfree] at hopen
      exact hopen.symm
    have hd1 : devices1[m]? = some { dev with opened_by := p } := by
      rw [h1]
      exact table_get_set devices m dev _ hdev
    refine ⟨by simp [hfree], fun n => ?_, fun tbl d e hd hno hnc => ?_⟩
    · obtain ⟨devices2, d2, hrun, hd2, ho2⟩ := run_keeps_owner BLOCK_SIZE c m p hp
        (es.take n) devices1 _ hd1 rfl (fun r hr => hes r (List.mem_of_mem_take hr))
      refine ⟨devices2, hrun, by simp [hd2, ho2], fun q => ?_⟩
      have hheld : d2.opened_by ≠ 0 := by
        rw [ho2]
        exact hp
      simp [dev_open, hd2, hheld]
    · obtain ⟨tbl1, d1, hstep, hd1, ho, -, -⟩ := step_slot BLOCK_SIZE c m tbl d e hd
      refine ⟨tbl1, d1, hstep, hd1, ?_⟩
      rcases ho with h | ⟨q, hq, -, -⟩ | ⟨r, hr, -⟩
      · exact h
      · exact absurd hq (hno q)
      · exact absurd hr (hnc r)

/-- Witness of `opened_by_exclusive`: process `7` opens an idle device, after
which the calls of `sample_session`, among them a close and an open by process
`8`, are made. -/
theorem opened_by_exclusive_witness :
    (7 : Nat) ≠ 0 ∧ dev_open [dev_idle] 0 7 = some (0, [⟨7, 512, 0, 0, 0⟩]) ∧
    (∀ r, event.close_by 7 r ∉ sample_session) ∧
    (([dev_idle] : List device)[0]?.map device.opened_by = some 0 ∧
    (∀ n, ∃ devices2, run 512 sample_codes 0 [⟨7, 512, 0, 0, 0⟩] (sample_session.take n) =
        some devices2 ∧
      devices2[0]?.map device.opened_by = some 7 ∧
      ∀ q, dev_open devices2 0 q = some (EBUSY, devices2)) ∧
    (∀ (tbl : List device) (d : device) (e : event), tbl[0]? = some d →
      (∀ q, e ≠ .open_by q) → (∀ r, e ≠ .close_by d.opened_by r) →
      ∃ tbl1 d1, step 512 sample_codes 0 tbl e = some tbl1 ∧ tbl1[0]? = some d1 ∧
        d1.opened_by = d.opened_by)) :=
  ⟨by decide, rfl, fun r h => by simp [sample_session] at h,
    opened_by_exclusive 512 sample_codes 0 [dev_idle] [⟨7, 512, 0, 0, 0⟩] 7 sample_session
      (by decide) rfl (fun r h => by simp [sample_session] at h)⟩

/-- From a state with no socket and `connect_completed = 0`, every sequence of
calls whose completions carry a non-null socket runs to the end and leaves
`connect_completed` at `0` or `1`, and at `1` only with a socket present. -/
theorem run_connection_inv (BLOCK_SIZE : Nat) (c : ioctl_codes) (m : Nat)
    (es : List event) :
    ∀ (devices : List device) (dev : device), devices[m]? = some dev →
      (dev.connect_completed = 0 ∨ dev.connect_completed = 1) →
      (dev.connect_completed ≠ 0 → dev.socket ≠ 0) →
      (∀ s, event.connect_complete s ∈ es → s ≠ 0) →
      ∃ devices1 d, run BLOCK_SIZE c m devices es = some devices1 ∧
        devices1[m]? = some d ∧
        (d.connect_completed = 0 ∨ d.connect_completed = 1) ∧
        (d.connect_completed ≠ 0 → d.socket ≠ 0) := by
  induction es with
  | nil =>
    intro devices dev hdev h01 himp _
    exact ⟨devices, dev, rfl, hdev, h01, himp⟩
  | cons e es ih =>
    intro devices dev hdev h01 himp hes
    obtain ⟨devices1, d, hstep, hd, -, hcc, hso⟩ := step_slot BLOCK_SIZE c m devices dev e hdev
    have h01d : d.connect_completed = 0 ∨ d.connect_completed = 1 := by
      rcases hcc with h | ⟨s, -, -, h⟩
      · rw [h]
        exact h01
      · exact Or.inr h
    have himpd : d.connect_completed ≠ 0 → d.socket ≠ 0 := by
      intro hne
      rcases hcc with h | ⟨s, hs, hsock, -⟩
      · rw [h] at hne
        have hdevso := himp hne
        rcases hso with h2 | h2
        · rw [h2]
          exact hdevso
        · exact absurd h2 hdevso
      · have hs0 : s ≠ 0 := hes s (by rw [hs]; exact List.mem_cons_self _ _)
        rcases hso with h2 | h2
        · rw [h2, hsock]
          exact hs0
        · rw [hsock] at h2
          exact absurd h2 hs0
    obtain ⟨devices2, d2, hrun, hd2, h01d2, himpd2⟩ := ih devices1 d hd h01d himpd
      (fun s hs => hes s (List.mem_cons_of_mem _ hs))
    exact ⟨devices2, d2, by simp [run, hstep, hrun], hd2, h01d2, himpd2⟩

/-- C18: from a device with `connect_completed = 0` (the initial state, where
there is no socket either; the socket plays no part in the proof), after any
sequence of `dev_open`, `dev_close`, `dev_strategy`, control commands and
connect completions carrying a non-null socket, `connect_completed` is `0` or
`1` and `connect_completed = 1` implies that the device has a socket; hence the
readiness test of `DKIOCGETBLOCKCOUNT` (`connect_completed` and `socket`) holds
exactly when `connect_completed` is set, and the command returns `ENXIO`
exactly when it is not. -/
theorem connect_completed_implies_socket (BLOCK_SIZE : Nat) (c : ioctl_codes) (m : Nat)
    (devices : List device) (dev : device) (es : List event)
    (hdev : devices[m]? = some dev) (hc : dev.connect_completed = 0)
    (hes : ∀ s, event.connect_complete s ∈ es → s ≠ 0) :
    ∃ devices1 d, run BLOCK_SIZE c m devices es = some devices1 ∧ devices1[m]? = some d ∧
      (d.connect_completed = 0 ∨ d.connect_completed = 1) ∧
      (d.connect_completed = 1 → d.socket ≠ 0) ∧
      ((d.connect_completed ≠ 0 ∧ d.socket ≠ 0) ↔ d.connect_completed ≠ 0) ∧
      (∀ (k : kpi_socket) (data : Nat),
        (dev_ioctl_bdev c k devices1 m c.DKIOCGETBLOCKCOUNT data).map ioctl_result.ret =
          some (if d.connect_completed ≠ 0 then 0 else ENXIO)) := by
  obtain ⟨devices1, d, hrun, hd, h01, himp⟩ := run_connection_inv BLOCK_SIZE c m es devices dev
    hdev (Or.inl hc) (fun h => absurd hc h) hes
  refine ⟨devices1, d, hrun, hd, h01, fun h1 => himp (by rw [h1]; decide),
    ⟨fun h => h.1, fun h => ⟨h, himp h⟩⟩, fun k data => ?_⟩
  rw [ioctl_getblockcount_eq c k devices1 m d data hd]
  by_cases hcc : d.connect_completed = 0
  · have hcond : ¬(d.connect_completed ≠ 0 ∧ d.socket ≠ 0) := fun h => h.1 hcc
    rw [if_pos hcond, if_neg (not_not.mpr hcc)]
    rfl
  · have hcond : d.connect_completed ≠ 0 ∧ d.socket ≠ 0 := ⟨hcc, himp hcc⟩
    rw [if_neg (not_not.mpr hcond), if_pos hcc]
    rfl

/-- Witness of `connect_completed_implies_socket`: the calls of
`sample_session` on an idle device, with completions for sockets `5` and `77`. -/
theorem connect_completed_implies_socket_witness :
    ([dev_idle] : List device)[0]? = some dev_idle ∧ dev_idle.connect_completed = 0 ∧
    (∀ s, event.connect_complete s ∈ sample_session → s ≠ 0) ∧
    ∃ devices1 d, run 512 sample_codes 0 [dev_idle] sample_session = some devices1 ∧
      devices1[0]? = some d ∧
      (d.connect_completed = 0 ∨ d.connect_completed = 1) ∧
      (d.connect_completed = 1 → d.socket ≠ 0) ∧
      ((d.connect_completed ≠ 0 ∧ d.socket ≠ 0) ↔ d.connect_completed ≠ 0) ∧
      (∀ (k : kpi_socket) (data : Nat),
        (dev_ioctl_bdev sample_codes k devices1 0 sample_codes.DKIOCGETBLOCKCOUNT data).map
            ioctl_result.ret =
          some (if d.connect_completed ≠ 0 then 0 else ENXIO)) :=
  ⟨rfl, rfl,
    fun s h => by
      simp [sample_session] at h
      omega,
    connect_completed_implies_socket 512 sample_codes 0 [dev_idle] dev_idle sample_session
      rfl rfl (fun s h => by
        simp [sample_session] at h
        omega)⟩

end NBD
